import Mathlib

/-!
Verification of the evergarden web-archiving crawler against its
natural-language specification.  The Rust sources are shallowly embedded:
pure functions become Lean functions over `Nat` bytes, `String`, and lists;
fallible code returns `Except`; I/O streams are modelled as the lists of
bytes or chunks they carry.
-/

namespace Evergarden

/-! ## Bytes, UTF-8, hex, and byte-lexicographic string order

Rust strings are UTF-8 byte sequences; `String` comparison in Rust is
byte-lexicographic, which coincides with code-point lexicographic order
because UTF-8 is order-preserving.  Bytes are modelled as `Nat` values
below 256. -/

/-- UTF-8 encoding of one code point (standard 1-4 byte encoding,
matching the bytes Rust stores for a `char`). -/
def charUtf8 (c : Char) : List Nat :=
  let n := c.toNat
  if n < 0x80 then [n]
  else if n < 0x800 then [0xC0 + n / 64, 0x80 + n % 64]
  else if n < 0x10000 then [0xE0 + n / 4096, 0x80 + (n / 64) % 64, 0x80 + n % 64]
  else [0xF0 + n / 262144, 0x80 + (n / 4096) % 64, 0x80 + (n / 64) % 64, 0x80 + n % 64]

/-- The UTF-8 bytes of a string, as Rust `str::as_bytes` yields them. -/
def strBytes (s : String) : List Nat :=
  s.data.flatMap charUtf8

/-- Code-point lexicographic `le` on character lists; agrees with the Rust
byte-lexicographic `Ord` on `String` because UTF-8 preserves code-point
order. -/
def charListLe : List Char → List Char → Bool
  | [], _ => true
  | _ :: _, [] => false
  | a :: as, b :: bs =>
    if a.toNat < b.toNat then true
    else if b.toNat < a.toNat then false
    else charListLe as bs

/-- Byte-lexicographic string order (Rust `String` `Ord`). -/
def strLe (a b : String) : Bool :=
  charListLe a.data b.data

/-- Lowercase hex digit. -/
def hexDigitLower (n : Nat) : Char :=
  if n < 10 then Char.ofNat (48 + n) else Char.ofNat (87 + n)

/-- Uppercase hex digit. -/
def hexDigitUpper (n : Nat) : Char :=
  if n < 10 then Char.ofNat (48 + n) else Char.ofNat (55 + n)

/-- Lowercase hex encoding of a byte list (as the faster-hex crate
produces for digests). -/
def bytesToHexLower (bs : List Nat) : String :=
  String.mk (bs.flatMap fun b => [hexDigitLower (b / 16 % 16), hexDigitLower (b % 16)])

/-- ASCII lowercasing of a string.  Models Rust `str::to_lowercase`
restricted to the ASCII range (the only range exercised here). -/
def toLowerAscii (s : String) : String :=
  String.mk (s.data.map Char.toLower)

/-! ## The url crate model

`url::Url` stores a serialization string plus parsed views of its
components.  The model keeps the views the evergarden code reads:
scheme, host, port, path, and the decoded query pairs, plus the full
serialization used by `as_str`.  The port view is stored as written in
the URL text; `Url.port` (the crate accessor) elides the scheme default,
which the crate does at parse time. -/

/-- A parsed URL host: a domain name or an IP address literal
(`url::Host`). -/
inductive UrlHost where
  | domain (s : String)
  | ip (s : String)
deriving DecidableEq, Repr

/-- The text of a host, as `Url.host_str` returns it. -/
def UrlHost.str : UrlHost → String
  | .domain s => s
  | .ip s => s

/-- Model of a parsed `url::Url`. -/
structure Url where
  /-- The full serialization, returned by `as_str`. -/
  serialization : String
  scheme : String
  host : Option UrlHost
  /-- The port as written in the URL text, before default-port elision. -/
  rawPort : Option Nat
  path : String
  /-- The decoded query pairs, as `query_pairs` yields them; a key with
  no `=` decodes to an empty value. -/
  queryPairs : List (String × String)
deriving DecidableEq, Repr

/-- Default port table of the url crate (`Url.port_or_known_default`
sources). -/
def defaultPort (scheme : String) : Option Nat :=
  if scheme = "http" then some 80
  else if scheme = "https" then some 443
  else if scheme = "ws" then some 80
  else if scheme = "wss" then some 443
  else if scheme = "ftp" then some 21
  else none

/-- `Url.port`: the crate returns `None` when the written port equals the
scheme default (parsing normalizes the default away). -/
def Url.port (u : Url) : Option Nat :=
  u.rawPort.filter fun p => defaultPort u.scheme ≠ some p

/-- The special schemes of the URL standard, for which an empty host is
rejected by `set_host`. -/
def specialScheme (s : String) : Bool :=
  s = "http" || s = "https" || s = "ws" || s = "wss" || s = "ftp" || s = "file"

/-- `url.set_host(Some(h))` restricted to how `surt` uses it: setting an
empty host on a special-scheme URL fails with `EmptyHost` and leaves the
URL unchanged (the caller ignores the `Result`); otherwise the host view
is replaced.  Only the host view is tracked because `surt` never reads
the serialization after the call. -/
def setHostView (u : Url) (h : String) : Url :=
  if h = "" ∧ specialScheme u.scheme then u
  else { u with host := some (.domain h) }

/-! ## SURT canonicalizer (src/client/src/surt.rs) -/

/-- The regex `^www\d*\.` applied to a domain: when it matches, returns
the remainder of the domain after the matched prefix. -/
def wwwRemainder (s : String) : Option String :=
  match s.data with
  | 'w' :: 'w' :: 'w' :: rest =>
    match rest.dropWhile Char.isDigit with
    | '.' :: tail => some (String.mk tail)
    | _ => none
  | _ => none

/-- Splitting a character list on `.`, with the semantics of Rust
`str::split`: the empty input yields one empty part, and separators at
either end yield empty parts. -/
def splitOnDot : List Char → List (List Char)
  | [] => [[]]
  | '.' :: rest => [] :: splitOnDot rest
  | c :: rest =>
    match splitOnDot rest with
    | [] => [[c]]
    | g :: gs => (c :: g) :: gs

/-- Joining strings with a separator. -/
def joinStrings (sep : String) : List String → String
  | [] => ""
  | [s] => s
  | s :: rest => s ++ sep ++ joinStrings sep rest

/-- Insertion of a query pair into a list sorted by key (byte-lexicographic
key order, as `sort_unstable_by` with `a.cmp(b)` on keys). -/
def insertPairByKey (p : String × String) : List (String × String) → List (String × String)
  | [] => [p]
  | q :: rest => if strLe p.1 q.1 then p :: q :: rest else q :: insertPairByKey p rest

/-- Sorting query pairs by key. -/
def sortPairsByKey (l : List (String × String)) : List (String × String) :=
  l.foldr insertPairByKey []

/-- One byte of application/x-www-form-urlencoded output (the serializer
behind `query_pairs_mut`): alphanumerics and `*-._` pass through, space
becomes `+`, anything else is percent-encoded with uppercase hex. -/
def formEncodeByte (b : Nat) : List Char :=
  if b = 32 then ['+']
  else if (48 ≤ b ∧ b ≤ 57) ∨ (65 ≤ b ∧ b ≤ 90) ∨ (97 ≤ b ∧ b ≤ 122)
      ∨ b = 42 ∨ b = 45 ∨ b = 46 ∨ b = 95 then [Char.ofNat b]
  else ['%', hexDigitUpper (b / 16), hexDigitUpper (b % 16)]

/-- Form-urlencoding of a string (over its UTF-8 bytes). -/
def formEncode (s : String) : String :=
  String.mk ((strBytes s).flatMap formEncodeByte)

/-- Serialization of query pairs: `k=v` joined by `&`, both sides
form-encoded; an empty value serializes as `k=`. -/
def serializePairs (ps : List (String × String)) : String :=
  joinStrings "&" (ps.map fun p => formEncode p.1 ++ "=" ++ formEncode p.2)

/-- Reversed dot-separated host parts joined by commas (`rsplit` plus
the push loop of `surt`). -/
def hostJoin (hostStr : String) : String :=
  joinStrings "," ((splitOnDot hostStr.data).map String.mk).reverse

/-- The `:port` fragment, read through the crate accessor `Url.port`
as the code does. -/
def portFragment (u : Url) : String :=
  match u.port with
  | some p => ":" ++ toString p
  | none => ""

/-- The `:port` fragment as the specification words it: appended only
when the port is non-default for the scheme. -/
def portFragmentSpec (u : Url) : String :=
  match u.rawPort with
  | some p => if defaultPort u.scheme = some p then "" else ":" ++ toString p
  | none => ""

/-- The serialized query: pairs lower-cased (keys and values), sorted by
key, and form-serialized with a missing value as empty. -/
def queryFragment (qp : List (String × String)) : String :=
  serializePairs (sortPairsByKey (qp.map fun p => (toLowerAscii p.1, toLowerAscii p.2)))

/-- The SURT canonicalizer, translated from `surt` in
src/client/src/surt.rs: strip a leading `www\d*\.` prefix from a domain
host via `set_host` (which fails, leaving the host, when the remainder is
empty on a special-scheme URL), reverse the dot-separated host parts
joining with commas, append the non-default port, `)` and the path, then
the lowercased, key-sorted, re-serialized query when non-empty. -/
def surt (u : Url) : String :=
  let u :=
    match u.host with
    | some (.domain s) =>
      match wwwRemainder s with
      | some rem => setHostView u rem
      | none => u
    | _ => u
  let base := hostJoin ((u.host.map UrlHost.str).getD "") ++ portFragment u ++ ")" ++ u.path
  let q := queryFragment u.queryPairs
  if q ≠ "" then base ++ "?" ++ q else base

/-- The canonical SURT form exactly as the specification words it: host
labels reversed and joined by commas, a single leading `www`/`wwwNN`
label (the dot included) stripped from a domain before reversal, the
port appended only when non-default for the scheme, then a closing
parenthesis, the path verbatim, and, when the query is non-empty, `?`
followed by the query pairs sorted by key with keys and values
lower-cased and a missing value serialized as empty. -/
def surtSpec (u : Url) : String :=
  let dom :=
    match u.host with
    | some (.domain s) =>
      match wwwRemainder s with
      | some rem => rem
      | none => s
    | some (.ip s) => s
    | none => ""
  let base := hostJoin dom ++ portFragmentSpec u ++ ")" ++ u.path
  let q := queryFragment u.queryPairs
  if q ≠ "" then base ++ "?" ++ q else base

/-- The canonical SURT form amended by the one exception the code forces:
when stripping the leading `www`/`wwwNN` label would leave an empty host
on a special-scheme URL (hosts such as `www.`), the host is left
unchanged, because `set_host` rejects the empty host and the code ignores
the failure. -/
def surtSpecAmended (u : Url) : String :=
  let dom :=
    match u.host with
    | some (.domain s) =>
      match wwwRemainder s with
      | some rem => if rem = "" ∧ specialScheme u.scheme then s else rem
      | none => s
    | some (.ip s) => s
    | none => ""
  let base := hostJoin dom ++ portFragmentSpec u ++ ")" ++ u.path
  let q := queryFragment u.queryPairs
  if q ≠ "" then base ++ "?" ++ q else base

/-- The port fragment computed through the crate accessor `Url.port`
coincides with the specification formulation checked against the default
port table directly. -/
theorem portFragment_eq_spec (u : Url) : portFragment u = portFragmentSpec u := by
  rcases u with ⟨ser, scheme, host, rawPort, path, qp⟩
  rcases rawPort with _ | p
  · rfl
  · simp only [portFragment, portFragmentSpec, Url.port, Option.filter]
    by_cases h : defaultPort scheme = some p
    · simp [h]
    · simp [h]

/-- The port fragment does not depend on the host view. -/
theorem portFragmentSpec_setHost (u : Url) (h : Option UrlHost) :
    portFragmentSpec { u with host := h } = portFragmentSpec u := rfl

/-- The SURT canonicalizer agrees with the amended specification
formulation on every URL. -/
theorem surt_eq_specAmended (u : Url) : surt u = surtSpecAmended u := by
  rcases u with ⟨ser, scheme, host, rawPort, path, qp⟩
  rcases host with _ | h
  · simp [surt, surtSpecAmended, portFragment_eq_spec, UrlHost.str]
  · rcases h with s | s
    · rcases hw : wwwRemainder s with _ | rem
      · simp [surt, surtSpecAmended, hw, portFragment_eq_spec, UrlHost.str]
      · by_cases hc : rem = "" ∧ specialScheme scheme
        · simp [surt, surtSpecAmended, hw, setHostView, if_pos hc, hc,
            portFragment_eq_spec, UrlHost.str]
        · have hps : portFragmentSpec
              { serialization := ser, scheme := scheme, host := some (UrlHost.domain rem),
                rawPort := rawPort, path := path, queryPairs := qp } =
              portFragmentSpec
              { serialization := ser, scheme := scheme, host := some (UrlHost.domain s),
                rawPort := rawPort, path := path, queryPairs := qp } := rfl
          simp [surt, surtSpecAmended, hw, setHostView, if_neg hc, hc,
            portFragment_eq_spec, hps, UrlHost.str]
    · simp [surt, surtSpecAmended, portFragment_eq_spec, UrlHost.str]

/-- A URL of the shape `https://www./`: the single host label is `www`
followed by the trailing dot, so the stripped remainder is empty. -/
def wwwDotUrl : Url :=
  { serialization := "https://www./", scheme := "https",
    host := some (.domain "www."), rawPort := none, path := "/", queryPairs := [] }

/-- A parsed https URL built from its components, as the seven SURT
scenarios of the specification parse. -/
def httpsUrl (ser host : String) (port : Option Nat) (path : String)
    (qp : List (String × String)) : Url :=
  { serialization := ser, scheme := "https", host := some (.domain host),
    rawPort := port, path := path, queryPairs := qp }

/-- Claim C1, counterexample: on the URL `https://www./` the code keeps
the `www.` host, because stripping it would leave an empty host and
`set_host` rejects that (the code ignores the failure), while the
claimed canonical form strips the label; the two disagree. -/
theorem c1_surt_counterexample :
    surt wwwDotUrl = ",www)/" ∧ surtSpec wwwDotUrl = ")/" ∧
      surt wwwDotUrl ≠ surtSpec wwwDotUrl := by
  refine ⟨rfl, rfl, ?_⟩
  decide

/-- Claim C1 (amended): for every URL the surt function returns the
canonical SURT key as specified, with the one exception that a leading
`www`/`wwwNN` label whose removal would empty the host of a
special-scheme URL is kept; and each of the seven SURT scenarios of the
specification maps to exactly the listed output. -/
theorem c1_surt_canonical :
    (∀ u : Url, surt u = surtSpecAmended u) ∧
    surt (httpsUrl "https://www23.example.com/some/path" "www23.example.com"
      none "/some/path" []) = "com,example)/some/path" ∧
    surt (httpsUrl "https://example.com/www2.example/some/value" "example.com"
      none "/www2.example/some/value" []) = "com,example)/www2.example/some/value" ∧
    surt (httpsUrl "https://abc.www.example.com/example" "abc.www.example.com"
      none "/example" []) = "com,example,www,abc)/example" ∧
    surt (httpsUrl "https://www.example.com/some/path" "www.example.com"
      (some 443) "/some/path" []) = "com,example)/some/path" ∧
    surt (httpsUrl "https://www.example.com:123/some/path" "www.example.com"
      (some 123) "/some/path" []) = "com,example:123)/some/path" ∧
    surt (httpsUrl "https://www.example.com/some/path?D=1&CC=2&EE=3" "www.example.com"
      none "/some/path" [("D", "1"), ("CC", "2"), ("EE", "3")]) =
      "com,example)/some/path?cc=2&d=1&ee=3" ∧
    surt (httpsUrl "https://www.example.com/some/path?a=b&c&cc=1&d=e" "www.example.com"
      none "/some/path" [("a", "b"), ("c", ""), ("cc", "1"), ("d", "e")]) =
      "com,example)/some/path?a=b&c=&cc=1&d=e" :=
  ⟨surt_eq_specAmended, rfl, rfl, rfl, rfl, rfl, rfl, rfl⟩

/-! ## SHA-256 (FIPS 180-4, as computed by the sha2 crate)

Words are `Nat` values reduced modulo `2 ^ 32`; messages and digests are
byte lists. -/

/-- Truncation to a 32-bit word. -/
def w32 (n : Nat) : Nat := n % 4294967296

/-- Right rotation of a 32-bit word by `n` bits. -/
def rotr32 (n x : Nat) : Nat := x / 2 ^ n + w32 (x * 2 ^ (32 - n))

/-- Bitwise complement of a 32-bit word. -/
def not32 (x : Nat) : Nat := x ^^^ 4294967295

/-- SHA-256 round constants (FIPS 180-4 section 4.2.2, written in
decimal). -/
def sha256K : List Nat :=
  [1116352408, 1899447441, 3049323471, 3921009573,
   961987163, 1508970993, 2453635748, 2870763221,
   3624381080, 310598401, 607225278, 1426881987,
   1925078388, 2162078206, 2614888103, 3248222580,
   3835390401, 4022224774, 264347078, 604807628,
   770255983, 1249150122, 1555081692, 1996064986,
   2554220882, 2821834349, 2952996808, 3210313671,
   3336571891, 3584528711, 113926993, 338241895,
   666307205, 773529912, 1294757372, 1396182291,
   1695183700, 1986661051, 2177026350, 2456956037,
   2730485921, 2820302411, 3259730800, 3345764771,
   3516065817, 3600352804, 4094571909, 275423344,
   430227734, 506948616, 659060556, 883997877,
   958139571, 1322822218, 1537002063, 1747873779,
   1955562222, 2024104815, 2227730452, 2361852424,
   2428436474, 2756734187, 3204031479, 3329325298]

/-- SHA-256 initial hash state (FIPS 180-4 section 5.3.3, written in
decimal). -/
def sha256H0 : List Nat :=
  [1779033703, 3144134277, 1013904242, 2773480762,
   1359893119, 2600822924, 528734635, 1541459225]

/-- Big-endian 8-byte encoding of a length in bits. -/
def be64 (n : Nat) : List Nat :=
  [n / 2 ^ 56 % 256, n / 2 ^ 48 % 256, n / 2 ^ 40 % 256, n / 2 ^ 32 % 256,
   n / 2 ^ 24 % 256, n / 2 ^ 16 % 256, n / 2 ^ 8 % 256, n % 256]

/-- SHA-256 padding: `0x80`, zeros to 56 mod 64, then the bit length. -/
def sha256Pad (msg : List Nat) : List Nat :=
  msg ++ [0x80] ++ List.replicate ((64 - (msg.length + 9) % 64) % 64) 0 ++ be64 (8 * msg.length)

/-- Big-endian grouping of bytes into 32-bit words. -/
def bytesToWords : List Nat → List Nat
  | a :: b :: c :: d :: rest => (((a * 256 + b) * 256 + c) * 256 + d) :: bytesToWords rest
  | _ => []

/-- Grouping a word list into 16-word chunks (the padded message length
is a multiple of 16 words). -/
def chunkWords : List Nat → List (List Nat)
  | w0 :: w1 :: w2 :: w3 :: w4 :: w5 :: w6 :: w7 ::
    w8 :: w9 :: w10 :: w11 :: w12 :: w13 :: w14 :: w15 :: rest =>
    [w0, w1, w2, w3, w4, w5, w6, w7, w8, w9, w10, w11, w12, w13, w14, w15] :: chunkWords rest
  | _ => []

/-- Appending the next message-schedule word. -/
def scheduleStep (w : List Nat) : List Nat :=
  let n := w.length
  let s1 := fun x => rotr32 17 x ^^^ rotr32 19 x ^^^ x / 2 ^ 10
  let s0 := fun x => rotr32 7 x ^^^ rotr32 18 x ^^^ x / 2 ^ 3
  w ++ [w32 (s1 (w.getD (n - 2) 0) + w.getD (n - 7) 0 + s0 (w.getD (n - 15) 0) + w.getD (n - 16) 0)]

/-- The 64-word message schedule of one chunk. -/
def schedule (ws : List Nat) : List Nat :=
  (List.range 48).foldl (fun w _ => scheduleStep w) ws

/-- One SHA-256 compression round on the 8-word working state. -/
def sha256Round (st : List Nat) (k w : Nat) : List Nat :=
  match st with
  | [a, b, c, d, e, f, g, h] =>
    let ch := (e &&& f) ^^^ (not32 e &&& g)
    let maj := (a &&& b) ^^^ (a &&& c) ^^^ (b &&& c)
    let bs1 := rotr32 6 e ^^^ rotr32 11 e ^^^ rotr32 25 e
    let bs0 := rotr32 2 a ^^^ rotr32 13 a ^^^ rotr32 22 a
    let t1 := w32 (h + bs1 + ch + k + w)
    let t2 := w32 (bs0 + maj)
    [w32 (t1 + t2), a, b, c, w32 (d + t1), e, f, g]
  | _ => st

/-- Compression of one 16-word chunk into the hash state. -/
def compressChunk (h : List Nat) (chunk : List Nat) : List Nat :=
  let st := ((sha256K.zip (schedule chunk)).foldl fun s kw => sha256Round s kw.1 kw.2) h
  (h.zip st).map fun p => w32 (p.1 + p.2)

/-- The SHA-256 digest of a byte list, as 32 bytes. -/
def sha256 (msg : List Nat) : List Nat :=
  ((chunkWords (bytesToWords (sha256Pad msg))).foldl compressChunk sha256H0).flatMap
    fun w => [w / 2 ^ 24 % 256, w / 2 ^ 16 % 256, w / 2 ^ 8 % 256, w % 256]

/-- `sha256_as_string` from src/export/src/lib.rs: the literal `sha256:`
followed by the lowercase hex encoding of the digest. -/
def sha256AsString (digest : List Nat) : String :=
  "sha256:" ++ bytesToHexLower digest

/-! ## HTTP data model (evergarden-common) -/

/-- `http::Version` values reachable through hyper. -/
inductive HttpVersion where
  | http09
  | http10
  | http11
  | h2
  | h3
deriving DecidableEq, Repr

/-- The `Debug` rendering of `http::Version`. -/
def HttpVersion.debugStr : HttpVersion → String
  | .http09 => "HTTP/0.9"
  | .http10 => "HTTP/1.0"
  | .http11 => "HTTP/1.1"
  | .h2 => "HTTP/2.0"
  | .h3 => "HTTP/3.0"

/-- The `WARC-Protocol` token of write_raw_warc. -/
def HttpVersion.warcProtocol : HttpVersion → String
  | .http09 => "http/0.9"
  | .http10 => "http/1.0"
  | .http11 => "http/1.1"
  | .h2 => "h2"
  | .h3 => "h3"

/-- `StatusCode::canonical_reason` of the http crate. -/
def canonicalReason (status : Nat) : Option String :=
  match status with
  | 100 => some "Continue"
  | 101 => some "Switching Protocols"
  | 102 => some "Processing"
  | 200 => some "OK"
  | 201 => some "Created"
  | 202 => some "Accepted"
  | 203 => some "Non Authoritative Information"
  | 204 => some "No Content"
  | 205 => some "Reset Content"
  | 206 => some "Partial Content"
  | 207 => some "Multi-Status"
  | 208 => some "Already Reported"
  | 226 => some "IM Used"
  | 300 => some "Multiple Choices"
  | 301 => some "Moved Permanently"
  | 302 => some "Found"
  | 303 => some "See Other"
  | 304 => some "Not Modified"
  | 305 => some "Use Proxy"
  | 307 => some "Temporary Redirect"
  | 308 => some "Permanent Redirect"
  | 400 => some "Bad Request"
  | 401 => some "Unauthorized"
  | 402 => some "Payment Required"
  | 403 => some "Forbidden"
  | 404 => some "Not Found"
  | 405 => some "Method Not Allowed"
  | 406 => some "Not Acceptable"
  | 407 => some "Proxy Authentication Required"
  | 408 => some "Request Timeout"
  | 409 => some "Conflict"
  | 410 => some "Gone"
  | 411 => some "Length Required"
  | 412 => some "Precondition Failed"
  | 413 => some "Payload Too Large"
  | 414 => some "URI Too Long"
  | 415 => some "Unsupported Media Type"
  | 416 => some "Range Not Satisfiable"
  | 417 => some "Expectation Failed"
  | 418 => some "I\x27m a teapot"
  | 421 => some "Misdirected Request"
  | 422 => some "Unprocessable Entity"
  | 423 => some "Locked"
  | 424 => some "Failed Dependency"
  | 426 => some "Upgrade Required"
  | 428 => some "Precondition Required"
  | 429 => some "Too Many Requests"
  | 431 => some "Request Header Fields Too Large"
  | 451 => some "Unavailable For Legal Reasons"
  | 500 => some "Internal Server Error"
  | 501 => some "Not Implemented"
  | 502 => some "Bad Gateway"
  | 503 => some "Service Unavailable"
  | 504 => some "Gateway Timeout"
  | 505 => some "HTTP Version Not Supported"
  | 506 => some "Variant Also Negotiates"
  | 507 => some "Insufficient Storage"
  | 508 => some "Loop Detected"
  | 510 => some "Not Extended"
  | 511 => some "Network Authentication Required"
  | _ => none

/-- The `Display` rendering of `http::StatusCode`, which includes the
canonical reason: `200` renders as `200 OK`. -/
def statusDisplay (status : Nat) : String :=
  toString status ++ " " ++ (canonicalReason status).getD "<unknown status code>"

/-- `UrlInfo` from evergarden-common. -/
structure UrlInfo where
  url : Url
  discovered_in : Url
  hops : Nat
deriving DecidableEq, Repr

/-- A UTC timestamp at second granularity (the `OffsetDateTime` fields
the export pipeline reads; sub-second digits play no role in any claim
here). -/
structure DateTime where
  year : Nat
  month : Nat
  day : Nat
  hour : Nat
  minute : Nat
  second : Nat
deriving DecidableEq, Repr

/-- Zero-padding a number to a fixed width. -/
def padNum (width n : Nat) : String :=
  let s := toString n
  String.mk (List.replicate (width - s.length) '0') ++ s

/-- RFC 3339 rendering of a UTC timestamp. -/
def rfc3339 (t : DateTime) : String :=
  padNum 4 t.year ++ "-" ++ padNum 2 t.month ++ "-" ++ padNum 2 t.day ++ "T" ++
    padNum 2 t.hour ++ ":" ++ padNum 2 t.minute ++ ":" ++ padNum 2 t.second ++ "Z"

/-- `ResponseMetadata` from evergarden-common.  Header names are stored
lower-cased, as `http::HeaderMap` keeps them; header values are kept as
strings. -/
structure ResponseMetadata where
  url : UrlInfo
  status : Nat
  version : HttpVersion
  headers : List (String × String)
  remote_addr : Option String
  fetched_at : DateTime
  id : String
deriving DecidableEq, Repr

/-! ## HTTP block and WARC record rendering
(src/export/src/writer.rs and src/export/src/warc.rs) -/

/-- One rendered header line: name, colon-space, value, CRLF
(`RecordWriter::header`). -/
def renderHeaderLine (h : String × String) : List Nat :=
  strBytes h.1 ++ strBytes ": " ++ strBytes h.2 ++ [13, 10]

/-- The status line written by `write_http_response`:
`format!("{:?} {} {}", version, status, canonical_reason)`, where the
`Display` of the status already carries the canonical reason. -/
def statusLine (m : ResponseMetadata) : String :=
  m.version.debugStr ++ " " ++ statusDisplay m.status ++ " " ++
    (canonicalReason m.status).getD "<unknown status code>"

/-- `write_http_response`: status line, header lines, blank line, body;
returns the rendered block and the end position of the temp file, which
is the byte count written. -/
def writeHttpResponse (m : ResponseMetadata) (body : List Nat) : List Nat × Nat :=
  let block := strBytes (statusLine m) ++ [13, 10] ++
    m.headers.flatMap renderHeaderLine ++ [13, 10] ++ body
  (block, block.length)

/-- The WARC header lines written by `write_raw_warc`, in order. -/
def writeRawWarcHeaders (m : ResponseMetadata) (digest : List Nat) (contentLen : Nat) :
    List (String × String) :=
  [("WARC-Target-URI", m.url.url.serialization),
   ("Content-Type", "application/http;msgtype=response"),
   ("WARC-Type", "response"),
   ("WARC-Date", rfc3339 m.fetched_at),
   ("WARC-Record-ID", "<urn:uuid:" ++ m.id ++ ">")] ++
  (match m.remote_addr with
   | some ip => [("WARC-IP-Address", ip)]
   | none => []) ++
  [("WARC-Protocol", m.version.warcProtocol),
   ("WARC-Block-Digest", sha256AsString digest),
   ("Content-Length", toString contentLen)]

/-- A WARC record before gzip framing: its header lines and the embedded
HTTP block (the gzip member wraps exactly these bytes). -/
structure WarcRecord where
  headers : List (String × String)
  httpBlock : List Nat
deriving Repr

/-- `write_warc`: render the HTTP block to a temp file, hash and measure
it, then emit the WARC record embedding that same file. -/
def writeWarc (m : ResponseMetadata) (body : List Nat) : WarcRecord :=
  let rendered := writeHttpResponse m body
  let digest := sha256 rendered.1
  { headers := writeRawWarcHeaders m digest rendered.2, httpBlock := rendered.1 }

/-- Lookup of a header value by exact name. -/
def headerValue (hs : List (String × String)) (name : String) : Option String :=
  (hs.find? fun h => h.1 = name).map Prod.snd

/-- Whether the first list is an initial segment of the second. -/
def listStartsWith : List Nat → List Nat → Bool
  | [], _ => true
  | _ :: _, [] => false
  | a :: as, b :: bs => a == b && listStartsWith as bs

/-- Claim C3: every WARC record carries a Content-Length header equal to
the byte length of the rendered embedded HTTP block, and a
WARC-Block-Digest header equal to `sha256:` followed by the lowercase
hex SHA-256 of exactly that block; the block is the status line, the
header lines, a blank line, and the body. -/
theorem c3_warc_block_integrity (m : ResponseMetadata) (body : List Nat) :
    headerValue (writeWarc m body).headers "Content-Length" =
      some (toString (writeWarc m body).httpBlock.length) ∧
    headerValue (writeWarc m body).headers "WARC-Block-Digest" =
      some ("sha256:" ++ bytesToHexLower (sha256 (writeWarc m body).httpBlock)) ∧
    (writeWarc m body).httpBlock =
      strBytes (statusLine m) ++ [13, 10] ++ m.headers.flatMap renderHeaderLine ++
        [13, 10] ++ body := by
  rcases hra : m.remote_addr with _ | ip <;>
    simp [writeWarc, writeRawWarcHeaders, writeHttpResponse, headerValue,
      sha256AsString, hra, List.find?]

/-- The metadata of the E1 scenario: HTTP/1.1, status 200, reason `OK`,
Content-Type text/html. -/
def e1Meta : ResponseMetadata :=
  { url :=
      { url := httpsUrl "https://example.com/" "example.com" none "/" []
        discovered_in := httpsUrl "https://example.com/" "example.com" none "/" []
        hops := 0 }
    status := 200
    version := .http11
    headers := [("content-type", "text/html")]
    remote_addr := none
    fetched_at := ⟨2024, 1, 1, 0, 0, 0⟩
    id := "00000000-0000-4000-8000-000000000000" }

/-- Claim C4, evaluation at the failing input: for an HTTP/1.1 status
200 response the rendered block begins with `HTTP/1.1 200 OK OK` and a
CRLF, not with `HTTP/1.1 200 OK` and a CRLF, because the status line is
written as `format!("{:?} {} {}", version, status, reason)` and the
`Display` of `http::StatusCode` already includes the canonical reason,
so the reason appears twice. -/
theorem c4_status_line_duplicated_reason :
    statusLine e1Meta = "HTTP/1.1 200 OK OK" ∧
    listStartsWith (strBytes "HTTP/1.1 200 OK OK\r\n")
      (writeWarc e1Meta (strBytes "<html/>")).httpBlock = true ∧
    listStartsWith (strBytes "HTTP/1.1 200 OK\r\n")
      (writeWarc e1Meta (strBytes "<html/>")).httpBlock = false := by
  refine ⟨rfl, ?_, ?_⟩ <;> decide

/-! ## Error types and responses (evergarden-common) -/

/-- `BodyReadError`; the payload of the transparent variants is reduced
to a message string. -/
inductive BodyReadError where
  | client (msg : String)
  | ioError (msg : String)
  | timedOut
  | bodyTooLarge
deriving DecidableEq, Repr

/-- `EvergardenError`; payloads reduced to message strings. -/
inductive EvergardenError where
  | io (msg : String)
  | bodyRead (e : BodyReadError)
  | json (msg : String)
  | cache (msg : String)
  | lz4 (msg : String)
deriving DecidableEq, Repr

instance {ε α : Type} [DecidableEq ε] [DecidableEq α] : DecidableEq (Except ε α) := fun x y =>
  match x, y with
  | .ok a, .ok b =>
    if h : a = b then isTrue (h ▸ rfl) else isFalse fun hh => h (Except.ok.inj hh)
  | .error a, .error b =>
    if h : a = b then isTrue (h ▸ rfl) else isFalse fun hh => h (Except.error.inj hh)
  | .ok _, .error _ => isFalse fun hh => Except.noConfusion hh
  | .error _, .ok _ => isFalse fun hh => Except.noConfusion hh

/-- `HttpResponse`: shared metadata plus the broadcast body stream,
modelled as the list of chunk values each subscriber observes (each
chunk is bytes or a shared terminal error). -/
structure HttpResponse where
  meta : ResponseMetadata
  body : List (Except BodyReadError (List Nat))
deriving DecidableEq, Repr

/-! ## Body broadcast and storage write
(src/client/src/client.rs `broadcast_body`, src/common/src/storage.rs
`write_by_key`) -/

/-- `broadcast_body`: pump hyper chunks (bytes, or a terminal transport
error) into the broadcast, tracking the received byte count; when a
configured maximum is exceeded the error is broadcast as the terminal
stream value and returned.  Yields the emitted stream and the task
result. -/
def broadcastBody (maxLength : Option Nat) (received : Nat) :
    List (Except String (List Nat)) →
      List (Except BodyReadError (List Nat)) × Except EvergardenError Unit
  | [] => ([], .ok ())
  | .ok chunk :: rest =>
    let received := received + chunk.length
    match maxLength with
    | some m =>
      if received > m then
        ([.error .bodyTooLarge], .error (.bodyRead .bodyTooLarge))
      else
        let r := broadcastBody (some m) received rest
        (.ok chunk :: r.1, r.2)
    | none =>
      let r := broadcastBody none received rest
      (.ok chunk :: r.1, r.2)
  | .error e :: _ => ([.error (.client e)], .error (.bodyRead (.client e)))

/-- The storage commit: reached only when the whole body stream was
consumed without error; carries the stored payload (the LZ4 frame codec
is an opaque invertible transform and is modelled as the identity on the
payload). -/
inductive StoreOutcome where
  | committed (bodyBytes : List Nat)
deriving DecidableEq, Repr

/-- The `while let` loop of `write_by_key`: consume the body stream via
`try_next`, propagating an error chunk with `?`. -/
def consumeBody : List (Except BodyReadError (List Nat)) → Except EvergardenError (List Nat)
  | [] => .ok []
  | .ok chunk :: rest => (consumeBody rest).map fun acc => chunk ++ acc
  | .error e :: _ => .error (.bodyRead e)

/-- `write_by_key`: consume the stream to completion, then flush and
commit; any error chunk aborts before the commit. -/
def writeByKey (bodyStream : List (Except BodyReadError (List Nat))) :
    Except EvergardenError StoreOutcome :=
  (consumeBody bodyStream).map .committed

/-- The error sequencing at the end of `HttpClient::get`:
`body.unwrap()?; storage?; scraper?` after the three-way join. -/
def fetchJoinOutcome (body storage scraper : Except EvergardenError Unit) :
    Except EvergardenError Unit := do
  let _ ← body
  let _ ← storage
  let _ ← scraper

/-! ## The fetcher loop (src/client/src/client.rs `run_async_loop`) -/

/-- The storage actor reply type. -/
inductive StorageResponse where
  | retrieve (r : Option HttpResponse)
  | stored
deriving Repr

/-- What the fetcher loop does with one incoming `UrlInfo` message. -/
inductive FetchStep where
  | answerCached (res : HttpResponse)
  | spawnFetch (u : UrlInfo)
deriving Repr

/-- The body of the `run_async_loop` message arm: ask storage to
retrieve the URL; if that yields a cached response, answer with it and
`continue`; otherwise acquire a permit and spawn the network fetch. -/
def handleUrlInfo (retrieveResult : Except EvergardenError StorageResponse)
    (value : UrlInfo) : FetchStep :=
  match retrieveResult with
  | .ok (.retrieve (some res)) => .answerCached res
  | _ => .spawnFetch value

/-- Whether a fetch step reaches the network. -/
def FetchStep.performsNetworkFetch : FetchStep → Bool
  | .answerCached _ => false
  | .spawnFetch _ => true

/-- Claim C5: when storage retrieval returns a cached response for the
requested URL, the fetcher answers with exactly that cached response and
performs no network fetch. -/
theorem c5_cached_url_never_refetched (res : HttpResponse) (u : UrlInfo) :
    handleUrlInfo (.ok (.retrieve (some res))) u = .answerCached res ∧
    (handleUrlInfo (.ok (.retrieve (some res))) u).performsNetworkFetch = false :=
  ⟨rfl, rfl⟩

/-- When the total chunk length pushes the received count past the
configured maximum, the broadcast task fails with BodyTooLarge, the
stream it emitted terminates with that error, and consuming the stream
in storage yields the same error before any commit. -/
theorem broadcastBody_exceeds_max (m : Nat) (chunks : List (List Nat)) :
    ∀ received, received ≤ m → m < received + (chunks.map List.length).sum →
      (broadcastBody (some m) received (chunks.map .ok)).2 =
          .error (.bodyRead .bodyTooLarge) ∧
      (broadcastBody (some m) received (chunks.map .ok)).1.getLast? =
          some (.error .bodyTooLarge) ∧
      consumeBody (broadcastBody (some m) received (chunks.map .ok)).1 =
          .error (.bodyRead .bodyTooLarge) := by
  induction chunks with
  | nil =>
    intro received h1 h2
    simp only [List.map_nil, List.sum_nil] at h2
    omega
  | cons c rest ih =>
    intro received h1 h2
    simp only [List.map_cons, List.sum_cons] at h2
    by_cases hgt : received + c.length > m
    · simp [broadcastBody, if_pos hgt, consumeBody]
    · have hle : received + c.length ≤ m := by omega
      have h2r : m < received + c.length + (rest.map List.length).sum := by omega
      obtain ⟨ihr, ihl, ihc⟩ := ih (received + c.length) hle h2r
      rcases hb : (broadcastBody (some m) (received + c.length) (rest.map .ok)).1 with _ | ⟨x, xs⟩
      · rw [hb] at ihl; simp at ihl
      · rw [hb] at ihl ihc
        refine ⟨?_, ?_, ?_⟩
        · simpa [broadcastBody, if_neg hgt] using ihr
        · simpa [broadcastBody, if_neg hgt, hb] using ihl
        · simp only [broadcastBody, if_neg hgt, hb, consumeBody]
          rw [ihc]
          rfl

/-- Claim C6: for a body whose bytes exceed the configured
max_body_length, the fetch ends in the BodyTooLarge error: the broadcast
task fails with it, the emitted stream terminates with it, the storage
write consuming the stream fails with it before the commit, and the
joined fetch result is that error regardless of the storage and scraper
results. -/
theorem c6_body_too_large_not_stored (m : Nat) (chunks : List (List Nat))
    (h : m < (chunks.map List.length).sum) :
    (broadcastBody (some m) 0 (chunks.map .ok)).2 = .error (.bodyRead .bodyTooLarge) ∧
    (broadcastBody (some m) 0 (chunks.map .ok)).1.getLast? = some (.error .bodyTooLarge) ∧
    writeByKey (broadcastBody (some m) 0 (chunks.map .ok)).1 =
      .error (.bodyRead .bodyTooLarge) ∧
    ∀ storage scraper,
      fetchJoinOutcome (broadcastBody (some m) 0 (chunks.map .ok)).2 storage scraper =
        .error (.bodyRead .bodyTooLarge) := by
  obtain ⟨h1, h2, h3⟩ :=
    broadcastBody_exceeds_max m chunks 0 (Nat.zero_le m) (by simpa using h)
  refine ⟨h1, h2, ?_, ?_⟩
  · rw [writeByKey, h3]
    rfl
  · intro storage scraper
    rw [fetchJoinOutcome, h1]
    rfl

/-- Claim C6, witness: a two-byte limit with a single three-byte chunk. -/
theorem c6_body_too_large_not_stored_witness :
    2 < (([[0, 0, 0]] : List (List Nat)).map List.length).sum ∧
    (broadcastBody (some 2) 0 (([[0, 0, 0]] : List (List Nat)).map .ok)).2 =
      .error (.bodyRead .bodyTooLarge) ∧
    writeByKey (broadcastBody (some 2) 0 (([[0, 0, 0]] : List (List Nat)).map .ok)).1 =
      .error (.bodyRead .bodyTooLarge) :=
  ⟨by decide, (c6_body_too_large_not_stored 2 [[0, 0, 0]] (by decide)).1,
    (c6_body_too_large_not_stored 2 [[0, 0, 0]] (by decide)).2.2.1⟩

/-! ## Script filters (src/client/src/config.rs) -/

/-- Splitting a character list on a separator, with Rust `str::split`
semantics. -/
def splitOnChar (sep : Char) : List Char → List (List Char)
  | [] => [[]]
  | c :: rest =>
    if c = sep then [] :: splitOnChar sep rest
    else
      match splitOnChar sep rest with
      | [] => [[c]]
      | g :: gs => (c :: g) :: gs

/-- The essential media type of the neo-mime crate: type and subtype,
lower-cased; parameters after `;` are dropped by `without_params` and
play no role in range matching. -/
structure MediaType where
  ty : String
  sub : String
deriving DecidableEq, Repr

/-- `MediaType::parse` reduced to the structure range matching reads: a
`type/subtype` pair before any `;`, both parts non-empty, lower-cased. -/
def parseMediaType (s : String) : Option MediaType :=
  match splitOnChar '/' (s.data.takeWhile fun c => c ≠ ';') with
  | [t, st] =>
    if t = [] ∨ st = [] then none
    else some ⟨toLowerAscii (String.mk t), toLowerAscii (String.mk st)⟩
  | _ => none

/-- A media range: `none` in a slot models the `*` wildcard. -/
structure MediaRange where
  ty : Option String
  sub : Option String
deriving DecidableEq, Repr

/-- `MediaRange::matches`: each declared slot must equal the
corresponding media-type slot; a wildcard slot always matches. -/
def MediaRange.rangeMatches (r : MediaRange) (m : MediaType) : Bool :=
  (match r.ty with
   | some t => t == m.ty
   | none => true) &&
  (match r.sub with
   | some s => s == m.sub
   | none => true)

/-- `ScriptFilter`: an optional URL regex, modelled as an opaque
predicate on the URL string, and the declared media ranges. -/
structure ScriptFilter where
  url_pattern : Option (String → Bool)
  mime_types : List MediaRange

/-- `ScriptFilter::matches_url`: the pattern must match when present;
an absent pattern matches everything. -/
def ScriptFilter.matchesUrl (f : ScriptFilter) (url : String) : Bool :=
  (f.url_pattern.map fun pat => pat url).getD true

/-- The parsed Content-Type media type of a response, when present and
parseable (`headers.get(CONTENT_TYPE)` then `to_str` then parse). -/
def contentTypeOf (m : ResponseMetadata) : Option MediaType :=
  (headerValue m.headers "content-type").bind parseMediaType

/-- `ScriptFilter::matches_types`: when the Content-Type header is
present and parseable, some declared range must match it; the
`unwrap_or(true)` makes an absent or unparsable header match. -/
def ScriptFilter.matchesTypes (f : ScriptFilter) (m : ResponseMetadata) : Bool :=
  ((contentTypeOf m).map fun mt => f.mime_types.any fun r => r.rangeMatches mt).getD true

/-- `ScriptFilter::matches`. -/
def ScriptFilter.filterMatches (f : ScriptFilter) (data : HttpResponse) : Bool :=
  f.matchesUrl data.meta.url.url.serialization && f.matchesTypes data.meta

/-- The C7 claim formulation: URL matches (or pattern absent) AND (no
media ranges declared, or the Content-Type media type matches a declared
range, an absent or unparsable header matching). -/
def filterMatchesClaimC7 (f : ScriptFilter) (data : HttpResponse) : Bool :=
  f.matchesUrl data.meta.url.url.serialization &&
  (f.mime_types.isEmpty ||
    ((contentTypeOf data.meta).map fun mt =>
      f.mime_types.any fun r => r.rangeMatches mt).getD true)

/-- The amended formulation: URL matches (or pattern absent) AND (the
response has no parseable Content-Type, or its media type matches at
least one declared range).  A filter declaring no mime_types therefore
matches only responses without a parseable Content-Type header. -/
def filterMatchesAmendedC7 (f : ScriptFilter) (data : HttpResponse) : Bool :=
  f.matchesUrl data.meta.url.url.serialization &&
  (match contentTypeOf data.meta with
   | none => true
   | some mt => f.mime_types.any fun r => r.rangeMatches mt)

/-- A script filter declaring no URL pattern and no media ranges. -/
def emptyFilter : ScriptFilter := { url_pattern := none, mime_types := [] }

/-- A response carrying a parseable Content-Type header (text/html). -/
def htmlResponse : HttpResponse := { meta := e1Meta, body := [] }

/-- Claim C7, counterexample: a filter declaring no mime_types does not
match a response with a parseable Content-Type header, because
`iter().any` over no ranges is false; the claim formulation says such a
filter matches regardless of Content-Type. -/
theorem c7_filter_counterexample :
    emptyFilter.filterMatches htmlResponse = false ∧
    filterMatchesClaimC7 emptyFilter htmlResponse = true ∧
    emptyFilter.mime_types = [] ∧
    contentTypeOf htmlResponse.meta = some ⟨"text", "html"⟩ := by
  refine ⟨rfl, rfl, rfl, rfl⟩

/-- Claim C7 (amended): filter.matches(resp) holds iff the URL pattern
matches or is absent, AND the response either has no parseable
Content-Type or its media type matches at least one declared media
range. -/
theorem c7_filter_matches_amended (f : ScriptFilter) (data : HttpResponse) :
    f.filterMatches data = filterMatchesAmendedC7 f data := by
  rcases hct : contentTypeOf data.meta with _ | mt <;>
    simp [ScriptFilter.filterMatches, ScriptFilter.matchesTypes,
      filterMatchesAmendedC7, hct]

/-! ## Script manager (src/client/src/scripting/script.rs) -/

/-- A `Script` as the manager sees it: its filter (its worker mailbox is
behaviour, not data, and enters through the request results below). -/
structure Script where
  filter : ScriptFilter

/-- The scripts whose filters match the response: `process` dispatches
`request(data.clone())` to exactly these. -/
def dispatchedScripts (scripts : List Script) (data : HttpResponse) : List Script :=
  scripts.filter fun s => s.filter.filterMatches data

/-- The await loop of `ScriptManager::process` over the dispatched
request results in completion order: `while let Some(v) =
stream.next().await { v?; }`.  Returns the outcome and how many results
were awaited; the `?` returns on the first error, dropping the remaining
futures. -/
def processAwait : List (Except EvergardenError Unit) → Except EvergardenError Unit × Nat
  | [] => (.ok (), 0)
  | .ok _ :: rest =>
    let r := processAwait rest
    (r.1, r.2 + 1)
  | .error e :: _ => (.error e, 1)

/-- Two failing script request results. -/
def twoFailures : List (Except EvergardenError Unit) :=
  [.error (.io "first failure"), .error (.io "second failure")]

/-- Claim C8, counterexample: with two matching scripts both failing,
`process` returns the first failure alone after awaiting only one of the
two dispatched requests; the second failure is not aggregated and its
request is abandoned. -/
theorem c8_process_counterexample :
    processAwait twoFailures = (.error (.io "first failure"), 1) ∧
    twoFailures.length = 2 ∧
    (processAwait twoFailures).1 ≠ .error (.io "second failure") := by
  refine ⟨rfl, rfl, ?_⟩
  decide

/-- Claim C8 (amended): a request is dispatched to every script whose
filter matches; the dispatched requests are awaited in completion order
and, on the first failure, process returns that single error immediately,
abandoning the results not yet awaited; only when every awaited result
succeeds does process await them all and return success. -/
theorem c8_process_first_failure (scripts : List Script) (data : HttpResponse) :
    dispatchedScripts scripts data = scripts.filter (fun s => s.filter.filterMatches data) ∧
    (∀ oks rest e, (∀ x ∈ oks, x = Except.ok ()) →
      processAwait (oks ++ .error e :: rest) = (.error e, oks.length + 1)) ∧
    (∀ oks, (∀ x ∈ oks, x = Except.ok ()) →
      processAwait oks = (.ok (), oks.length)) := by
  refine ⟨rfl, ?_, ?_⟩
  · intro oks rest e hok
    induction oks with
    | nil => simp [processAwait]
    | cons x xs ih =>
      have hx : x = Except.ok () := hok x (by simp)
      have hxs : ∀ y ∈ xs, y = Except.ok () := fun y hy => hok y (by simp [hy])
      subst hx
      simp [processAwait, ih hxs, Nat.add_comm, Nat.add_assoc]
  · intro oks hok
    induction oks with
    | nil => rfl
    | cons x xs ih =>
      have hx : x = Except.ok () := hok x (by simp)
      have hxs : ∀ y ∈ xs, y = Except.ok () := fun y hy => hok y (by simp [hy])
      subst hx
      simp [processAwait, ih hxs]

/-- Claim C8, witness for the amended statement: one successful result
followed by a failure stops after two awaits; two successes await both. -/
theorem c8_process_first_failure_witness :
    (∀ x ∈ ([Except.ok ()] : List (Except EvergardenError Unit)), x = Except.ok ()) ∧
    processAwait [.ok (), .error (.io "boom")] = (.error (.io "boom"), 2) ∧
    processAwait [.ok (), .ok ()] = (.ok (), 2) :=
  ⟨by simp,
    (c8_process_first_failure [] htmlResponse).2.1 [.ok ()] [] (.io "boom") (by simp),
    (c8_process_first_failure [] htmlResponse).2.2 [.ok (), .ok ()] (by simp)⟩

/-! ## Hop resolution and the script instance frame loop
(evergarden-common `UrlInfo::hop`, src/client/src/scripting/script.rs
`ScriptInstance::submit`) -/

/-- `UrlInfo::hop`: join the new URL against the current one through the
url crate (passed in as the join oracle `join`); on success the hop
count grows by one exactly when the host changes, and the current URL
becomes the discovery origin. -/
def UrlInfo.hop (join : Url → String → Option Url) (self : UrlInfo) (newUrl : String) :
    Option UrlInfo :=
  match join self.url newUrl with
  | none => none
  | some n =>
    some { url := n, discovered_in := self.url,
           hops := self.hops + if n.host ≠ self.url.host then 1 else 0 }

/-- A frame read from the scraper subprocess. -/
inductive ChildFrame where
  | submitUrl (url : String)
  | fetchUrl (url : String)
  | endFile
deriving DecidableEq, Repr

/-- What the host does with one child frame. -/
inductive HostAction where
  | dropInvalid
  | dropMaxHops
  | deferredFetch (u : UrlInfo)
  | answerFetchOk (res : HttpResponse)
  | answerFetchErr (msg : String)
  | finish
deriving Repr

/-- The frame dispatch of `ScriptInstance::submit`: a Submit frame is
hop-resolved and dropped when the hop count exceeds max_hops, otherwise
fired as a deferred request; a Fetch frame is hop-resolved (an
unresolvable URL answers an `invalid_url` error) and then fetched
synchronously with no hop bound, answering AnswerFetch with the result;
EndFile ends the loop. -/
def handleFrame (join : Url → String → Option Url) (maxHops : Nat) (data : UrlInfo)
    (fetchResult : UrlInfo → Except String HttpResponse) : ChildFrame → HostAction
  | .submitUrl url =>
    match UrlInfo.hop join data url with
    | none => .dropInvalid
    | some u => if u.hops > maxHops then .dropMaxHops else .deferredFetch u
  | .fetchUrl url =>
    match UrlInfo.hop join data url with
    | none => .answerFetchErr "invalid_url"
    | some u =>
      match fetchResult u with
      | .ok res => .answerFetchOk res
      | .error e => .answerFetchErr e
  | .endFile => .finish

/-- Claim C10: the max_hops bound acts only on Submit frames: whenever
hop resolution succeeds, a Fetch frame is fetched and answered with an
AnswerFetch reply even when the resolved hop count exceeds max_hops,
while a Submit frame whose resolved hop count exceeds max_hops is
dropped (and fired as a deferred request otherwise). -/
theorem c10_max_hops_only_on_submit (join : Url → String → Option Url) (maxHops : Nat)
    (data : UrlInfo) (fetchResult : UrlInfo → Except String HttpResponse)
    (url : String) (u : UrlInfo) (h : UrlInfo.hop join data url = some u) :
    handleFrame join maxHops data fetchResult (.fetchUrl url) =
      (match fetchResult u with
       | .ok res => .answerFetchOk res
       | .error e => .answerFetchErr e) ∧
    (u.hops > maxHops →
      handleFrame join maxHops data fetchResult (.submitUrl url) = .dropMaxHops) ∧
    (¬ u.hops > maxHops →
      handleFrame join maxHops data fetchResult (.submitUrl url) = .deferredFetch u) := by
  refine ⟨?_, ?_, ?_⟩
  · simp [handleFrame, h]
  · intro hh
    simp [handleFrame, h, hh]
  · intro hh
    simp [handleFrame, h, hh]

/-- A join oracle resolving everything to a fixed cross-host URL. -/
def wJoin : Url → String → Option Url :=
  fun _ _ => some (httpsUrl "https://other.example/x" "other.example" none "/x" [])

/-- A current UrlInfo already at hop depth 5 on example.com. -/
def wData : UrlInfo :=
  { url := httpsUrl "https://example.com/" "example.com" none "/" []
    discovered_in := httpsUrl "https://example.com/" "example.com" none "/" []
    hops := 5 }

/-- A fetch oracle that fails with a fixed transport message. -/
def wFetch : UrlInfo → Except String HttpResponse := fun _ => .error "connection refused"

/-- Claim C10, witness: with max_hops 0 and a hop resolving to depth 6,
the Fetch frame is still fetched and answered, while the Submit frame is
dropped for exceeding max_hops. -/
theorem c10_max_hops_only_on_submit_witness :
    (∃ u, UrlInfo.hop wJoin wData "x" = some u ∧ u.hops = 6) ∧
    handleFrame wJoin 0 wData wFetch (.fetchUrl "x") =
      .answerFetchErr "connection refused" ∧
    handleFrame wJoin 0 wData wFetch (.submitUrl "x") = .dropMaxHops := by
  have h : UrlInfo.hop wJoin wData "x" =
      some { url := httpsUrl "https://other.example/x" "other.example" none "/x" []
             discovered_in := wData.url, hops := 6 } := by
    simp [UrlInfo.hop, wJoin, wData, httpsUrl]
  refine ⟨⟨_, h, rfl⟩, ?_, ?_⟩
  · exact (c10_max_hops_only_on_submit wJoin 0 wData wFetch "x" _ h).1
  · exact (c10_max_hops_only_on_submit wJoin 0 wData wFetch "x" _ h).2.1 (by decide)

/-! ## Export pipeline ordering (src/export/src/main.rs and
src/export/src/cdxj.rs) -/

/-- Strict byte-lexicographic string order. -/
def strLt (a b : String) : Bool :=
  strLe a b && !(a == b)

/-- One record listed from storage: SURT key, integrity hash, metadata. -/
structure StoredRecord where
  key : String
  integrity : String
  meta : ResponseMetadata
deriving Repr

/-- `OffsetDateTime::to_hms`: the clock time only, dropping the date. -/
def DateTime.hms (t : DateTime) : Nat × Nat × Nat :=
  (t.hour, t.minute, t.second)

/-- Lexicographic `le` on clock times. -/
def hmsLe (a b : Nat × Nat × Nat) : Bool :=
  a.1 < b.1 || (a.1 == b.1 && (a.2.1 < b.2.1 || (a.2.1 == b.2.1 && a.2.2 ≤ b.2.2)))

/-- The comparator of the export pre-sort:
`(lkey, lmeta.fetched_at.to_hms()).cmp(&(rkey, rmeta.fetched_at.to_hms()))`
as a `le` relation. -/
def recordLe (a b : StoredRecord) : Bool :=
  strLt a.key b.key || (a.key == b.key && hmsLe a.meta.fetched_at.hms b.meta.fetched_at.hms)

/-- Ordered insertion under the pre-sort comparator. -/
def insertRecord (r : StoredRecord) : List StoredRecord → List StoredRecord
  | [] => [r]
  | x :: xs => if recordLe r x then r :: x :: xs else x :: insertRecord r xs

/-- The `sort_unstable_by` of the export pipeline: any sort meeting the
comparator contract, realized as insertion sort. -/
def sortRecords (l : List StoredRecord) : List StoredRecord :=
  l.foldr insertRecord []

/-- The `[year][month][day][hour][minute][second]` CDXJ timestamp as a
14-digit number (digit-string comparison and numeric comparison agree at
fixed width). -/
def cdxTimestamp (t : DateTime) : Nat :=
  ((((t.year * 100 + t.month) * 100 + t.day) * 100 + t.hour) * 100 + t.minute) * 100 + t.second

/-- The `(key, time)` head of one CDXJ line for a record. -/
def cdxLine (r : StoredRecord) : String × Nat :=
  (r.key, cdxTimestamp r.meta.fetched_at)

/-- Grouping a list into chunks of at most `n`, with an explicit fuel
bound (`CDXWriter::flush_lines` drains the buffer `min(len, 1000)`
records at a time, in order). -/
def chunksOfAux {α : Type} (fuel n : Nat) (l : List α) : List (List α) :=
  match fuel, l with
  | 0, _ => []
  | _, [] => []
  | fuel + 1, l => l.take n :: chunksOfAux fuel n (l.drop n)

/-- Grouping a list into chunks of at most `n`. -/
def chunksOf {α : Type} (n : Nat) (l : List α) : List (List α) :=
  chunksOfAux l.length n l

/-- The CDXJ lines of an export run, in file order: the listed records
are pre-sorted with the `(key, to_hms)` comparator, submitted to the CDX
writer group by group in that order, and the writer drains them into
gzip blocks of at most 1000 lines, preserving order. -/
def exportCdxLines (records : List StoredRecord) : List (String × Nat) :=
  ((chunksOf 1000 (sortRecords records)).map fun batch => batch.map cdxLine).flatten

/-- The C2 claim property: lines non-decreasing in `(key, time)` with
the full timestamp as time. -/
def linesSortedByKeyTime : List (String × Nat) → Bool
  | [] => true
  | [_] => true
  | a :: b :: rest =>
    (strLt a.1 b.1 || (a.1 == b.1 && a.2 ≤ b.2)) && linesSortedByKeyTime (b :: rest)

/-- A record for `com,example)/` fetched at 23:00 UTC on 2024-01-01. -/
def lateEveningRecord : StoredRecord :=
  { key := "com,example)/", integrity := "xxh3-aaaa",
    meta := { e1Meta with fetched_at := ⟨2024, 1, 1, 23, 0, 0⟩ } }

/-- A record for the same key fetched at 01:00 UTC the next day. -/
def nextMorningRecord : StoredRecord :=
  { key := "com,example)/", integrity := "xxh3-bbbb",
    meta := { e1Meta with fetched_at := ⟨2024, 1, 2, 1, 0, 0⟩ } }

/-- Claim C2, evaluation at the failing input: the pre-sort compares
only `to_hms()`, the clock time, so the record fetched at 01:00 on day
two sorts before the one fetched at 23:00 on day one and the emitted
CDXJ lines decrease in the full `(key, time)` pair. -/
theorem c2_cdxj_lines_not_sorted :
    exportCdxLines [lateEveningRecord, nextMorningRecord] =
      [("com,example)/", 20240102010000), ("com,example)/", 20240101230000)] ∧
    linesSortedByKeyTime (exportCdxLines [lateEveningRecord, nextMorningRecord]) = false := by
  refine ⟨rfl, rfl⟩

/-! ## WACZ packaging (src/export/src/main.rs, finalize paths from
warc.rs, cdxj.rs, pages.rs) -/

/-- A `DataPackageEntry`: name, path, raw digest (serialized as
`sha256:<hex>` by `ser_sha256_as_str`), byte length. -/
structure DataPackageEntry where
  name : String
  path : String
  hash : List Nat
  bytes : Nat
deriving DecidableEq, Repr

/-- The `{:05}.warc.gz` file name of the rotating WARC writer. -/
def warcFileName (i : Nat) : String :=
  padNum 5 i ++ ".warc.gz"

/-- A WARC entry of `RotatingWarcRecorder::finalize`: packaged under
`archive/`. -/
def warcEntry (i : Nat) (hash : List Nat) (bytes : Nat) : DataPackageEntry :=
  { name := warcFileName i, path := "archive/" ++ warcFileName i, hash := hash, bytes := bytes }

/-- The CDX entry of `CDXWriter::finalize("indexes/")`. -/
def cdxEntry (hash : List Nat) (bytes : Nat) : DataPackageEntry :=
  { name := "index.cdx.gz", path := "indexes/index.cdx.gz", hash := hash, bytes := bytes }

/-- The IDX entry of `CDXWriter::finalize("indexes/")`. -/
def idxEntry (hash : List Nat) (bytes : Nat) : DataPackageEntry :=
  { name := "index.idx", path := "indexes/index.idx", hash := hash, bytes := bytes }

/-- The pages entry of `PagesWriter::finalize("pages/")`. -/
def pagesEntry (hash : List Nat) (bytes : Nat) : DataPackageEntry :=
  { name := "pages.jsonl", path := "pages/pages.jsonl", hash := hash, bytes := bytes }

/-- The extra-pages entry of `PagesWriter::finalize("pages/")`. -/
def extraPagesEntry (hash : List Nat) (bytes : Nat) : DataPackageEntry :=
  { name := "extraPages.jsonl", path := "pages/extraPages.jsonl", hash := hash, bytes := bytes }

/-- `all_entries` as main builds the datapackage resources: the WARC
entries first, then the CDX, IDX, pages, and extra-pages entries. -/
def allEntries (warcs : List DataPackageEntry) (c i p e : DataPackageEntry) :
    List DataPackageEntry :=
  warcs ++ [c, i, p, e]

/-- A member of the WACZ ZIP. -/
inductive ZipMember where
  | dir (path : String)
  | file (path : String)
deriving DecidableEq, Repr

/-- The ZIP members in addition order: the three directories, then
datapackage.json, the two indexes, the two pages files, and finally each
WARC file (added by its entry path). -/
def waczMembers (warcs : List DataPackageEntry) : List ZipMember :=
  [.dir "archive", .dir "indexes", .dir "pages",
   .file "datapackage.json",
   .file "indexes/index.cdx.gz", .file "indexes/index.idx",
   .file "pages/pages.jsonl", .file "pages/extraPages.jsonl"] ++
  warcs.map fun w => .file w.path

/-- The non-directory member paths of a ZIP member list, in order. -/
def nonDirPaths (ms : List ZipMember) : List String :=
  ms.filterMap fun m =>
    match m with
    | .file p => some p
    | .dir _ => none

/-- The single WARC file of a minimal export. -/
def oneWarc : List DataPackageEntry :=
  [warcEntry 0 (List.replicate 32 0) 123]

/-- The datapackage resources of the minimal export. -/
def oneWarcResources : List DataPackageEntry :=
  allEntries oneWarc (cdxEntry (List.replicate 32 1) 10) (idxEntry (List.replicate 32 2) 20)
    (pagesEntry (List.replicate 32 3) 30) (extraPagesEntry (List.replicate 32 4) 40)

/-- Claim C9, counterexample: in a minimal export the resources list
the WARC file first and omit datapackage.json, while the ZIP adds
datapackage.json first and the WARC file last, so the resources neither
cover every non-directory member nor follow the claimed addition
order. -/
theorem c9_datapackage_counterexample :
    oneWarcResources.map DataPackageEntry.path =
      ["archive/00000.warc.gz", "indexes/index.cdx.gz", "indexes/index.idx",
       "pages/pages.jsonl", "pages/extraPages.jsonl"] ∧
    nonDirPaths (waczMembers oneWarc) =
      ["datapackage.json", "indexes/index.cdx.gz", "indexes/index.idx",
       "pages/pages.jsonl", "pages/extraPages.jsonl", "archive/00000.warc.gz"] ∧
    "datapackage.json" ∉ oneWarcResources.map DataPackageEntry.path ∧
    oneWarcResources.map DataPackageEntry.path ≠ nonDirPaths (waczMembers oneWarc) := by
  refine ⟨rfl, rfl, by decide, by decide⟩

/-- Claim C9 (amended): the resources array lists, with name, path,
`sha256:<hex>` hash and byte length, every non-directory ZIP member
except datapackage.json itself, in the order: each archive WARC file
first, then indexes/index.cdx.gz, indexes/index.idx, pages/pages.jsonl,
pages/extraPages.jsonl; the ZIP addition order differs, placing
datapackage.json first and the WARC files last. -/
theorem c9_datapackage_resources (warcs : List DataPackageEntry)
    (dc di dp de : List Nat) (lc li lp le : Nat) :
    (allEntries warcs (cdxEntry dc lc) (idxEntry di li) (pagesEntry dp lp)
        (extraPagesEntry de le)).map DataPackageEntry.path =
      warcs.map DataPackageEntry.path ++
        ["indexes/index.cdx.gz", "indexes/index.idx",
         "pages/pages.jsonl", "pages/extraPages.jsonl"] ∧
    nonDirPaths (waczMembers warcs) =
      "datapackage.json" :: "indexes/index.cdx.gz" :: "indexes/index.idx" ::
        "pages/pages.jsonl" :: "pages/extraPages.jsonl" ::
          warcs.map DataPackageEntry.path ∧
    ∀ p ∈ nonDirPaths (waczMembers warcs), p ≠ "datapackage.json" →
      p ∈ (allEntries warcs (cdxEntry dc lc) (idxEntry di li) (pagesEntry dp lp)
        (extraPagesEntry de le)).map DataPackageEntry.path := by
  have h2 : nonDirPaths (waczMembers warcs) =
      "datapackage.json" :: "indexes/index.cdx.gz" :: "indexes/index.idx" ::
        "pages/pages.jsonl" :: "pages/extraPages.jsonl" ::
          warcs.map DataPackageEntry.path := by
    simp [waczMembers, nonDirPaths, List.filterMap_append]
    induction warcs with
    | nil => rfl
    | cons w ws ih => simpa [List.filterMap_cons] using ih
  refine ⟨?_, h2, ?_⟩
  · simp [allEntries, cdxEntry, idxEntry, pagesEntry, extraPagesEntry]
  · intro p hp hne
    rw [h2] at hp
    simp only [List.mem_cons] at hp
    rcases hp with h | h | h | h | h | h
    · exact absurd h hne
    all_goals simp [allEntries, cdxEntry, idxEntry, pagesEntry, extraPagesEntry, h]

/-- Claim C9, witness for the amended statement: in the minimal export
the IDX member path is among the resources paths. -/
theorem c9_datapackage_resources_witness :
    "indexes/index.idx" ∈ nonDirPaths (waczMembers oneWarc) ∧
    "indexes/index.idx" ≠ "datapackage.json" ∧
    "indexes/index.idx" ∈ (allEntries oneWarc (cdxEntry (List.replicate 32 1) 10)
      (idxEntry (List.replicate 32 2) 20) (pagesEntry (List.replicate 32 3) 30)
      (extraPagesEntry (List.replicate 32 4) 40)).map DataPackageEntry.path :=
  ⟨by decide, by decide,
    (c9_datapackage_resources oneWarc (List.replicate 32 1) (List.replicate 32 2)
      (List.replicate 32 3) (List.replicate 32 4) 10 20 30 40).2.2
      "indexes/index.idx" (by decide) (by decide)⟩

end Evergarden
